import Mathlib

/-!
Verification of the allocation-aware container utilities in
`src/entt/core/memory.hpp`: the fancy-pointer address resolver
`to_address`, the three allocator-propagation helpers
(`propagate_on_container_copy_assignment`,
`propagate_on_container_move_assignment`, `propagate_on_container_swap`),
and the power-of-two helpers `is_power_of_two` / `fast_mod`.

Machine integers: `std::size_t` is modelled as `Nat` together with the
explicit modulus `2 ^ 64`; the only place the width matters is the
subtraction `Value - 1u`, which is modelled by the wrapping subtraction
`size_t_sub` below.
-/

namespace entt

/-- Bit width of `std::size_t` on the target platform (64-bit). -/
def size_t_bits : Nat := 64

/-- The modulus of `std::size_t` arithmetic, `2 ^ 64`. -/
def size_t_mod : Nat := 2 ^ size_t_bits

/-- Wrapping (two's-complement style) subtraction on `std::size_t`:
`a - b` computed modulo `2 ^ 64`, as the expression `Value - 1u` is
evaluated in the C++ source. -/
def size_t_sub (a b : Nat) : Nat :=
  (a + (size_t_mod - b % size_t_mod)) % size_t_mod

/-- An indirection chain as consumed by `to_address`: a value is either a
raw pointer (the `std::is_pointer_v` branch of the source) or a fancy
pointer whose `operator->()` yields the next, strictly shorter chain.
`α` stands for the raw-pointer type. -/
inductive Pointer (α : Type) : Type where
  | raw : α → Pointer α
  | fancy : Pointer α → Pointer α

/-- Source function `entt::to_address` (memory.hpp lines 20-27): if the argument is a raw
pointer it is returned unchanged, otherwise the function recurses on
`ptr.operator->()`, which is the payload of the `fancy` constructor. -/
def to_address {α : Type} : Pointer α → α
  | .raw p => p
  | .fancy q => to_address q

/-- The number of `operator->` indirection steps a chain takes before
reaching a raw pointer. -/
def depth {α : Type} : Pointer α → Nat
  | .raw _ => 0
  | .fancy q => depth q + 1

/-- Fuel-indexed variant of `to_address` used to state termination: each
recursive call of the source consumes one unit of fuel, and the result is
`none` when the fuel is exhausted before a raw pointer is reached. -/
def to_address_fuel {α : Type} : Nat → Pointer α → Option α
  | _, .raw p => some p
  | 0, .fancy _ => none
  | n + 1, .fancy q => to_address_fuel n q

/-- A raw pointer wrapped by `n` layers of fancy-pointer indirection. -/
def wrapN {α : Type} : Nat → α → Pointer α
  | 0, p => .raw p
  | n + 1, p => .fancy (wrapN n p)

/-- Source function `entt::propagate_on_container_copy_assignment` (memory.hpp lines
36-41).  Allocator instances are values of `α`; `pocca` is the type-level
trait `std::allocator_traits<Allocator>::propagate_on_container_copy_assignment::value`.
The imperative body mutates `lhs` only (`lhs = rhs;` reads `rhs` through a
const reference), so the function returns the pair of post-call values
`(lhs, rhs)`. -/
def propagate_on_container_copy_assignment {α : Type} (pocca : Bool)
    (lhs rhs : α) : α × α :=
  if pocca then (rhs, rhs) else (lhs, rhs)

/-- Source function `entt::propagate_on_container_move_assignment` (memory.hpp lines
50-55).  `pocma` is the trait
`std::allocator_traits<Allocator>::propagate_on_container_move_assignment::value`.
The body `lhs = std::move(rhs);` transfers `rhs`'s value into `lhs` and
leaves `rhs` in a valid-but-unspecified moved-from state, modelled by the
abstract map `movedFrom`; when the trait is false the body is empty. -/
def propagate_on_container_move_assignment {α : Type} (pocma : Bool)
    (movedFrom : α → α) (lhs rhs : α) : α × α :=
  if pocma then (rhs, movedFrom rhs) else (lhs, rhs)

/-- Modelled from the spec: `ENTT_ASSERT` comes from `config/config.h`,
which is not under `src/`.  Per the spec a violated assertion is a fatal,
unrecoverable failure; it is modelled as `none`, while a satisfied
assertion lets execution continue with the given result. -/
def entt_assert {α : Type} (cond : Bool) (next : α) : Option α :=
  if cond then some next else none

/-- Source function `entt::propagate_on_container_swap` (memory.hpp lines 64-73).
Here `pocs` is the trait
`std::allocator_traits<Allocator>::propagate_on_container_swap::value` and
`beq` the allocator's `operator==`.  The source first asserts
`pocs || lhs == rhs` ("Cannot swap the containers"), then, only when the
trait holds, exchanges the two values with `std::swap`. -/
def propagate_on_container_swap {α : Type} (pocs : Bool)
    (beq : α → α → Bool) (lhs rhs : α) : Option (α × α) :=
  entt_assert (pocs || beq lhs rhs) (if pocs then (rhs, lhs) else (lhs, rhs))

/-- Source alias `entt::is_power_of_two` (memory.hpp lines 80-89):
`std::bool_constant<Value && ((Value & (Value - 1)) == 0)>` with the
subtraction performed in `std::size_t` arithmetic. -/
def is_power_of_two (V : Nat) : Bool :=
  (V != 0) && ((V &&& size_t_sub V 1) == 0)

/-- Source function `entt::fast_mod` (memory.hpp lines 98-102): `value & (Value - 1u)`.
The `static_assert(is_power_of_two_v<Value>)` guarding the template
becomes a hypothesis of the theorems below. -/
def fast_mod (V : Nat) (value : Nat) : Nat :=
  value &&& size_t_sub V 1

end entt

/-! ### Supporting lemmas -/

namespace entt

theorem size_t_mod_eq : size_t_mod = 18446744073709551616 := by
  norm_num [size_t_mod, size_t_bits]

/-- For a nonzero `std::size_t` value below the modulus, the wrapping
subtraction of `1` agrees with the truncated subtraction on `Nat`. -/
theorem size_t_sub_one_eq {V : Nat} (h0 : V ≠ 0) (hV : V < size_t_mod) :
    size_t_sub V 1 = V - 1 := by
  have hm : size_t_mod = 18446744073709551616 := size_t_mod_eq
  unfold size_t_sub
  rw [hm] at hV ⊢
  omega

/-- A nonzero value whose bitwise AND with its predecessor vanishes is a
power of two: the heart of `is_power_of_two`. -/
theorem pow_of_and_pred_eq_zero {V : Nat} (h0 : V ≠ 0)
    (h : V &&& (V - 1) = 0) : ∃ k, V = 2 ^ k := by
  have hpos : 0 < V := Nat.pos_of_ne_zero h0
  refine ⟨Nat.size V - 1, ?_⟩
  have hs : 0 < Nat.size V := Nat.size_pos.2 hpos
  have hk1 : Nat.size V - 1 + 1 = Nat.size V := by omega
  set k := Nat.size V - 1 with hk
  have hle : 2 ^ k ≤ V := Nat.lt_size.1 (by omega)
  have hlt : V < 2 ^ (k + 1) := by
    rw [hk1]; exact Nat.lt_size_self V
  by_contra hne
  have hgt : 2 ^ k < V := lt_of_le_of_ne hle fun e => hne e.symm
  have h2 : V < 2 * 2 ^ k := by
    have he : 2 ^ (k + 1) = 2 * 2 ^ k := by ring
    omega
  have hVdiv : V / 2 ^ k = 1 :=
    Nat.div_eq_of_lt_le (by omega) (by omega)
  have hPdiv : (V - 1) / 2 ^ k = 1 :=
    Nat.div_eq_of_lt_le (by omega) (by omega)
  have t1 : V.testBit k = true := by
    rw [Nat.testBit_to_div_mod, hVdiv]; rfl
  have t2 : (V - 1).testBit k = true := by
    rw [Nat.testBit_to_div_mod, hPdiv]; rfl
  have t3 : ((V &&& (V - 1)).testBit k) = true := by
    rw [Nat.testBit_and, t1, t2]; rfl
  rw [h, Nat.zero_testBit] at t3
  exact Bool.false_ne_true t3

/-- Unfolding of `is_power_of_two` for values in `std::size_t` range. -/
theorem is_power_of_two_eq_true_iff {V : Nat} (hV : V < size_t_mod) :
    is_power_of_two V = true ↔ V ≠ 0 ∧ V &&& (V - 1) = 0 := by
  unfold is_power_of_two
  constructor
  · intro h
    have h1 : (V != 0) = true ∧ ((V &&& size_t_sub V 1) == 0) = true := by
      simpa [Bool.and_eq_true] using h
    have h0 : V ≠ 0 := by simpa using h1.1
    refine ⟨h0, ?_⟩
    have := h1.2
    rwa [size_t_sub_one_eq h0 hV, beq_iff_eq] at this
  · rintro ⟨h0, h⟩
    rw [size_t_sub_one_eq h0 hV]
    simp [h0, h]

end entt

/-! ### Claim theorems -/

namespace entt

/-- C6: resolving a raw pointer returns it unchanged, and resolving a
fancy pointer that wraps a raw pointer `p` under any finite number of
indirection layers yields exactly `p`. -/
theorem to_address_resolves {α : Type} (p : α) :
    to_address (Pointer.raw p) = p ∧ ∀ n : Nat, to_address (wrapN n p) = p := by
  refine ⟨rfl, ?_⟩
  intro n
  induction n with
  | zero => rfl
  | succ n ih => simpa [wrapN, to_address] using ih

/-- C8: `to_address` terminates on every finite indirection chain: each
`operator->` step strictly decreases the remaining chain depth, and the
recursion completes within `depth w` steps, returning the value
`to_address` computes. -/
theorem to_address_terminates {α : Type} (w : Pointer α) :
    (∀ q : Pointer α, w = Pointer.fancy q → depth q < depth w) ∧
      to_address_fuel (depth w) w = some (to_address w) := by
  constructor
  · intro q hq
    subst hq
    simp [depth]
  · induction w with
    | raw p => rfl
    | fancy q ih => simpa [depth, to_address_fuel, to_address] using ih

/-- C3: copy-propagation assigns `rhs` to `lhs` exactly when the
`propagate_on_container_copy_assignment` trait holds, and leaves `lhs`
unchanged when it does not. -/
theorem propagate_copy_spec {α : Type} (pocca : Bool) (lhs rhs : α) :
    (pocca = true →
      propagate_on_container_copy_assignment pocca lhs rhs = (rhs, rhs)) ∧
    (pocca = false →
      propagate_on_container_copy_assignment pocca lhs rhs = (lhs, rhs)) := by
  constructor <;> intro h <;> subst h <;> rfl

/-- C10: copy-propagation never writes the source allocator: whatever the
trait value, the post-call value of `rhs` is its pre-call value. -/
theorem propagate_copy_preserves_rhs {α : Type} (pocca : Bool) (lhs rhs : α) :
    (propagate_on_container_copy_assignment pocca lhs rhs).2 = rhs := by
  cases pocca <;> rfl

/-- C4: move-propagation makes `lhs` equal to `rhs`'s pre-call value when
the `propagate_on_container_move_assignment` trait holds; when the trait
is false both allocators are left untouched, so `rhs` is not consumed. -/
theorem propagate_move_spec {α : Type} (pocma : Bool) (movedFrom : α → α)
    (lhs rhs : α) :
    (pocma = true →
      (propagate_on_container_move_assignment pocma movedFrom lhs rhs).1 = rhs) ∧
    (pocma = false →
      propagate_on_container_move_assignment pocma movedFrom lhs rhs = (lhs, rhs)) := by
  constructor <;> intro h <;> subst h <;> rfl

/-- C2: with swap-propagation disabled, the call succeeds and leaves both
allocators unchanged when they compare equal, and fails the assertion
exactly when they compare unequal. -/
theorem propagate_swap_disabled_spec {α : Type} (beq : α → α → Bool)
    (lhs rhs : α) :
    (beq lhs rhs = true →
      propagate_on_container_swap false beq lhs rhs = some (lhs, rhs)) ∧
    (beq lhs rhs = false →
      propagate_on_container_swap false beq lhs rhs = none) ∧
    (propagate_on_container_swap false beq lhs rhs = none ↔
      beq lhs rhs = false) := by
  unfold propagate_on_container_swap entt_assert
  cases h : beq lhs rhs <;> simp

/-- C9: with swap-propagation enabled the asserted condition
`pocs || lhs == rhs` holds whatever the equality comparison returns, so
the assertion can never fire. -/
theorem propagate_swap_enabled_no_assert {α : Type} (beq : α → α → Bool)
    (lhs rhs : α) :
    (propagate_on_container_swap true beq lhs rhs).isSome = true := by
  unfold propagate_on_container_swap entt_assert
  simp

/-- C5: with swap-propagation enabled a single call exchanges the two
allocators, and chaining a second call on the result restores the
original values: the operation is an involution. -/
theorem propagate_swap_involution {α : Type} (beq : α → α → Bool) (A B : α) :
    propagate_on_container_swap true beq A B = some (B, A) ∧
    (propagate_on_container_swap true beq A B).bind
        (fun p => propagate_on_container_swap true beq p.1 p.2) =
      some (A, B) := by
  unfold propagate_on_container_swap entt_assert
  simp

/-- C7: over the `std::size_t` range, `is_power_of_two` accepts exactly
the powers of two; in particular `0` is rejected, so no non-power-of-two
divisor can pass the static check guarding `fast_mod`. -/
theorem is_power_of_two_spec (V : Nat) (hV : V < size_t_mod) :
    (is_power_of_two V = true ↔ ∃ k, V = 2 ^ k) ∧
      is_power_of_two 0 = false := by
  refine ⟨?_, by decide⟩
  rw [is_power_of_two_eq_true_iff hV]
  constructor
  · rintro ⟨h0, h⟩
    exact pow_of_and_pred_eq_zero h0 h
  · rintro ⟨k, rfl⟩
    refine ⟨Nat.pos_iff_ne_zero.1 (Nat.two_pow_pos k), ?_⟩
    calc 2 ^ k &&& 2 ^ k - 1 = 2 ^ k % 2 ^ k := Nat.and_pow_two_sub_one_eq_mod _ _
      _ = 0 := Nat.mod_self _

/-- C7 witness: the characterization instantiated at the in-range divisor
`16`, together with the rejection of `0`. -/
theorem is_power_of_two_spec_witness :
    ((is_power_of_two 16 = true ↔ ∃ k, (16 : Nat) = 2 ^ k) ∧
      is_power_of_two 0 = false) :=
  is_power_of_two_spec 16 (by rw [size_t_mod_eq]; norm_num)

/-- C1: for every power-of-two divisor and every value in `std::size_t`
range, `fast_mod` agrees with the ordinary modulus, and in particular
`fast_mod 16` maps `37` to `5`, `16` to `0` and `0` to `0`. -/
theorem fast_mod_spec (V v : Nat) (hV : V < size_t_mod) (_hv : v < size_t_mod)
    (hpow : is_power_of_two V = true) :
    fast_mod V v = v % V ∧
      fast_mod 16 37 = 5 ∧ fast_mod 16 16 = 0 ∧ fast_mod 16 0 = 0 := by
  obtain ⟨h0, hand⟩ := (is_power_of_two_eq_true_iff hV).1 hpow
  obtain ⟨k, rfl⟩ := pow_of_and_pred_eq_zero h0 hand
  refine ⟨?_, by decide, by decide, by decide⟩
  unfold fast_mod
  rw [size_t_sub_one_eq h0 hV]
  exact Nat.and_pow_two_sub_one_eq_mod v k

/-- C1 witness: the general statement discharged at the divisor `16` and
the value `37`. -/
theorem fast_mod_spec_witness :
    fast_mod 16 37 = 37 % 16 ∧
      fast_mod 16 37 = 5 ∧ fast_mod 16 16 = 0 ∧ fast_mod 16 0 = 0 :=
  fast_mod_spec 16 37 (by rw [size_t_mod_eq]; norm_num)
    (by rw [size_t_mod_eq]; norm_num) (by decide)

end entt
